import Mathlib

/-!
Verification of `ingesta.py`: a batch job that validates configuration,
checks each configured table's existence in the catalog, streams every
existing table to a CSV file in bounded chunks, and uploads the produced
files to an object store.

The embedding is shallow: the script's pure logic (identifier guard,
table-list parsing, quote-constant selection, key derivation, the chunk
loop, and the orchestrator's control flow) is translated into executable
Lean definitions.  External capabilities are modelled as data: the
database is a catalog plus a contents map, the filesystem is a map from
paths to lists of CSV lines, and the run produces an event trace (mkdir,
catalog query, SELECT query, file append, upload) together with an
outcome (sys.exit code, uncaught error, or normal completion).

Python-semantics helpers (`str.strip`, `str.split`, `str.upper`,
`re.match` with `$` also matching before one trailing newline,
`os.path.basename`, `os.path.join`, `rstrip('/')`) are defined over the
character list of a `String` so that everything evaluates by `decide`.
-/

set_option linter.unusedVariables false

namespace Ingesta

/-- ASCII whitespace characters stripped by Python's `str.strip()`. -/
def isPySpace (c : Char) : Bool :=
  c == ' ' || c == '\t' || c == '\n' || c == '\r' || c == '\x0b' || c == '\x0c'

/-- Drop leading and trailing elements satisfying `p`. -/
def stripAround {α : Type} (p : α → Bool) (l : List α) : List α :=
  ((l.dropWhile p).reverse.dropWhile p).reverse

/-- Python `t.strip()` (src line 21). -/
def pyStrip (s : String) : String :=
  String.mk (stripAround isPySpace s.data)

/-- Helper for `pySplitComma`: accumulates the current field reversed. -/
def splitOnCommaAux : List Char → List Char → List (List Char)
  | [], acc => [acc.reverse]
  | c :: cs, acc =>
    if c = ',' then acc.reverse :: splitOnCommaAux cs []
    else splitOnCommaAux cs (c :: acc)

/-- Python `s.split(",")` (src line 21): on `""` it yields `[""]`. -/
def pySplitComma (s : String) : List String :=
  (splitOnCommaAux s.data []).map String.mk

/-- src line 21: `TABLES = [t.strip() for t in TABLES_ENV.split(",") if t.strip()]`. -/
def parseTables (s : String) : List String :=
  ((pySplitComma s).map pyStrip).filter (fun t => t != "")

/-- Python `str.upper()` restricted to the ASCII range (src line 24 applies it
to a configuration name, which is ASCII). -/
def pyUpper (s : String) : String :=
  String.mk (s.data.map Char.toUpper)

/-- Characters of the regex character class `[A-Za-z0-9_]` (src line 60). -/
def validIdentChar (c : Char) : Bool :=
  decide (('A' ≤ c ∧ c ≤ 'Z') ∨ ('a' ≤ c ∧ c ≤ 'z') ∨ ('0' ≤ c ∧ c ≤ '9') ∨ c = '_')

/-- Python `re.match(r"^[A-Za-z0-9_]+$", s)` as a Boolean (src lines 60 and 64).
Python's `$` (without `re.MULTILINE`) matches at the end of the string or just
before a single trailing newline, so the pattern matches exactly the strings
`w` and `w ++ "\n"` for `w` a nonempty run of `[A-Za-z0-9_]` characters. -/
def reMatchIdent (s : String) : Bool :=
  let core := if s.data.getLast? = some '\n' then s.data.dropLast else s.data
  decide (core ≠ []) && core.all validIdentChar

/-- Errors the script can raise that the claims talk about. -/
inductive PyError where
  | invalidIdentifier (name : String)
  deriving DecidableEq

/-- src lines 62..66: raise `ValueError(f"Nombre inválido: {name!r}")` when the
regex does not match, otherwise return the name unchanged. -/
def safe_ident (name : String) : Except PyError String :=
  if !reMatchIdent name then Except.error (PyError.invalidIdentifier name)
  else Except.ok name

/-- The four `csv` module quoting constants (src lines 39..42). -/
inductive QuoteConst where
  | QUOTE_MINIMAL
  | QUOTE_ALL
  | QUOTE_NONNUMERIC
  | QUOTE_NONE
  deriving DecidableEq

/-- src lines 36..43: dictionary lookup with fallback `QUOTE_MINIMAL`. -/
def csv_quote_const (name : String) : QuoteConst :=
  if name = "MINIMAL" then QuoteConst.QUOTE_MINIMAL
  else if name = "ALL" then QuoteConst.QUOTE_ALL
  else if name = "NONNUMERIC" then QuoteConst.QUOTE_NONNUMERIC
  else if name = "NONE" then QuoteConst.QUOTE_NONE
  else QuoteConst.QUOTE_MINIMAL

/-- src line 24 composed with line 88: the environment value is upper-cased
and then fed to `csv_quote_const`. -/
def selectQuote (envVal : String) : QuoteConst :=
  csv_quote_const (pyUpper envVal)

/-- Python `os.path.basename`: the part after the last `'/'`. -/
def pyBasename (p : String) : String :=
  String.mk ((p.data.reverse.takeWhile (fun c => c != '/')).reverse)

/-- Python `p.rstrip('/')` (src line 117). -/
def pyRstripSlash (p : String) : String :=
  String.mk ((p.data.reverse.dropWhile (fun c => c == '/')).reverse)

/-- Python `os.path.join(a, b)` for POSIX paths (src line 86). -/
def pyPathJoin (a b : String) : String :=
  if b.data.head? = some '/' then b
  else if a = "" then b
  else if a.data.getLast? = some '/' then a ++ b
  else a ++ "/" ++ b

/-- src lines 114..130: the remote key `upload_to_s3` derives and returns.
`if prefix:` treats both `None` and `""` as falsy.  The transfer itself is an
external capability; on its success the function returns the key. -/
def upload_to_s3 (local_path : String) (bucket : String) (pfx : Option String) : String :=
  let key := pyBasename local_path
  match pfx with
  | none => key
  | some p => if p = "" then key else pyRstripSlash p ++ "/" ++ key

/-- A database row, as the list of its rendered cells. -/
abbrev Row := List String

/-- One line of a produced CSV file: the header line or a data line. -/
inductive Line where
  | header
  | data (cells : Row)
  deriving DecidableEq

def isHeaderLine : Line → Bool
  | Line.header => true
  | Line.data _ => false

def countHeaders (ls : List Line) : Nat :=
  ls.countP isHeaderLine

/-- Local filesystem: each path holds a list of CSV lines (absent = empty). -/
def FS : Type := String → List Line

def emptyFS : FS := fun _ => []

/-- `chunk.to_csv(out_path, mode="a", ...)` (src lines 94..102): appending to
the file at `path`, never truncating. -/
def appendFS (fs : FS) (path : String) (ls : List Line) : FS :=
  fun p => if p = path then fs p ++ ls else fs p

/-- The lines one chunk append writes: `header=not header_written`
(src line 101) prepends the header line exactly when it was not yet written. -/
def chunkCsvLines (header_written : Bool) (chunk : List Row) : List Line :=
  (if header_written then [] else [Line.header]) ++ chunk.map Line.data

/-- Fuel-indexed splitting into consecutive chunks of at most `C` rows; the
fuel `rows.length` suffices whenever `C > 0`. -/
def chunksOfAux (C : Nat) : Nat → List Row → List (List Row)
  | 0, _ => []
  | _ + 1, [] => []
  | fuel + 1, a :: l => ((a :: l).take C) :: chunksOfAux C fuel ((a :: l).drop C)

/-- `pd.read_sql(query, engine, chunksize=C)` (src line 93): the result rows
arrive in consecutive chunks of at most `C` rows each.  An empty result
yields a single empty chunk: pandas ≥ 1.3 yields one empty DataFrame for an
empty result so that column information is preserved, and this code requires
a modern pandas anyway (the `lineterminator` keyword of src line 100 exists
only in pandas ≥ 1.5).  So for a zero-row table the loop body runs exactly
once and `to_csv(header=True)` writes a header-only file. -/
def chunksOf (C : Nat) (rows : List Row) : List (List Row) :=
  if C = 0 then []
  else if rows = [] then [[]]
  else chunksOfAux C rows.length rows

/-- The lines the whole chunk loop appends, starting from a given
`header_written` flag. -/
def csvLines : List (List Row) → Bool → List Line
  | [], _ => []
  | c :: rest, hw => chunkCsvLines hw c ++ csvLines rest true

/-- The chunk loop of `export_table_to_csv` (src lines 89..104), threading the
`header_written` flag, `row_count`, the number of performed append operations,
and the filesystem. -/
def exportChunks (path : String) :
    List (List Row) → Bool → Nat → Nat → FS → FS × Nat × Nat
  | [], _, row_count, ops, fs => (fs, row_count, ops)
  | chunk :: rest, header_written, row_count, ops, fs =>
    exportChunks path rest true (row_count + chunk.length) (ops + 1)
      (appendFS fs path (chunkCsvLines header_written chunk))

/-- The database as seen by the script: the catalog's `(table_schema,
table_name)` listing and the rows of each table. -/
structure Db where
  catalog : List (String × String)
  contents : String → String → List Row

/-- The `COUNT(*)` the catalog query of src lines 70..74 computes. -/
def catalogCount (db : Db) (schema tbl : String) : Nat :=
  (db.catalog.filter (fun p => p.1 == schema && p.2 == tbl)).length

/-- A parameterized SQL query: fixed text plus named bound parameters. -/
structure BoundQuery where
  sqlText : String
  params : List (String × String)

/-- src lines 70..76: the `text(...)` query with its parameter dictionary
`{"schema": PG_SCHEMA, "tbl": table_name}`.  The text is a constant; the
names are passed only as bound parameters. -/
def tableExistsQuery (schema tbl : String) : BoundQuery :=
  { sqlText := "SELECT COUNT(*) AS c FROM information_schema.tables WHERE table_schema = :schema AND table_name = :tbl"
    params := [("schema", schema), ("tbl", tbl)] }

/-- src lines 69..77: `(r or 0) > 0` on the count returned by the catalog
query.  Total: a nonexistent table is a normal `false`, not an error. -/
def table_exists (db : Db) (schema tbl : String) : Bool :=
  decide (0 < catalogCount db schema tbl)

/-- The script's environment-derived configuration (src lines 13..33).
`CSV_QUOTE` holds the already upper-cased value, as the module-level global
does. -/
structure Config where
  PG_DB : String
  PG_USER : String
  PG_PASSWORD : String
  PG_SCHEMA : String
  TABLES_ENV : String
  CSV_QUOTE : String
  CHUNKSIZE : Nat
  OUTPUT_DIR : String
  S3_BUCKET : String
  S3_PREFIX : String
  TIMESTAMP : String

/-- Observable side effects of a run, in order. -/
inductive Event where
  | mkdirOutput (dir : String)
  | dbExistsQuery (schema tbl : String)
  | dbSelectQuery (schema tbl : String)
  | fileAppend (path : String)
  | s3Upload (bucket key : String)
  deriving DecidableEq

def isUploadEvent : Event → Bool
  | Event.s3Upload _ _ => true
  | _ => false

/-- What one call of `export_table_to_csv` produces. -/
structure ExportResult where
  out_path : String
  fs : FS
  events : List Event
  row_count : Nat
  append_ops : Nat

/-- src lines 80..107: validate both identifiers through `safe_ident` (this
happens before the query is built and before any I/O of this function), build
the output path `{OUTPUT_DIR}/{table}_{TIMESTAMP}.csv`, run the interpolated
`SELECT * FROM "schema"."table"` in chunks, and append each chunk to the
file. -/
def export_table_to_csv (cfg : Config) (db : Db) (table_name : String) (fs : FS) :
    Except PyError ExportResult :=
  match safe_ident table_name with
  | Except.error e => Except.error e
  | Except.ok table =>
    match safe_ident cfg.PG_SCHEMA with
    | Except.error e => Except.error e
    | Except.ok schema =>
      let filename := table ++ "_" ++ cfg.TIMESTAMP ++ ".csv"
      let out_path := pyPathJoin cfg.OUTPUT_DIR filename
      let chunks := chunksOf cfg.CHUNKSIZE (db.contents schema table)
      let res := exportChunks out_path chunks false 0 0 fs
      Except.ok
        { out_path := out_path
          fs := res.1
          events := Event.dbSelectQuery schema table ::
            chunks.map (fun _ => Event.fileAppend out_path)
          row_count := res.2.1
          append_ops := res.2.2 }

/-- The produced file's lines, final row count and append-operation count of
one export run against a fresh filesystem; `none` when the export raises. -/
def exportSummary (cfg : Config) (db : Db) (tbl : String) :
    Option (List Line × Nat × Nat) :=
  match export_table_to_csv cfg db tbl emptyFS with
  | Except.ok r => some (r.fs r.out_path, r.row_count, r.append_ops)
  | Except.error _ => none

/-- Closed form of the file content one export appends: the header line
exactly once, first, followed by one data line per row.  A zero-row table
produces the header-only file `[Line.header]`: the single empty chunk still
runs the loop body once with `header=True`. -/
def csvContent (rows : List Row) : List Line :=
  Line.header :: rows.map Line.data

/-- The export loop of `main` (src lines 148..154): per table, first the
parameterized existence check, then either a skip or the export; an export
error aborts the loop. -/
def exportPhase (cfg : Config) (db : Db) :
    List String → List Event → FS → List String →
      List Event × FS × List String × Option PyError
  | [], evs, fs, done => (evs, fs, done, none)
  | tbl :: rest, evs, fs, done =>
    let evs2 := evs ++ [Event.dbExistsQuery cfg.PG_SCHEMA tbl]
    if table_exists db cfg.PG_SCHEMA tbl then
      match export_table_to_csv cfg db tbl fs with
      | Except.error e => (evs2, fs, done, some e)
      | Except.ok r =>
        exportPhase cfg db rest (evs2 ++ r.events) r.fs (done ++ [r.out_path])
    else
      exportPhase cfg db rest evs2 fs done

/-- How the process ends: `sys.exit code`, an uncaught exception, or normal
completion (exit status 0). -/
inductive RunOutcome where
  | exited (code : Nat)
  | crashed (e : PyError)
  | completed
  deriving DecidableEq

structure RunResult where
  outcome : RunOutcome
  events : List Event
  fs : FS
  exported_files : List String

/-- src lines 133..163: `main()`.  Required-config checks (lines 134..143)
run before `ensure_output_dir` and before any database call; then the export
loop; `sys.exit(2)` when nothing was exported; otherwise the upload loop. -/
def mainRun (cfg : Config) (db : Db) : RunResult :=
  if cfg.PG_DB = "" ∨ cfg.PG_USER = "" ∨ cfg.PG_PASSWORD = ""
      ∨ parseTables cfg.TABLES_ENV = [] then
    { outcome := RunOutcome.exited 1, events := [], fs := emptyFS, exported_files := [] }
  else if cfg.S3_BUCKET = "" then
    { outcome := RunOutcome.exited 1, events := [], fs := emptyFS, exported_files := [] }
  else
    match exportPhase cfg db (parseTables cfg.TABLES_ENV)
        [Event.mkdirOutput cfg.OUTPUT_DIR] emptyFS [] with
    | (evs, fs, done, some e) =>
      { outcome := RunOutcome.crashed e, events := evs, fs := fs, exported_files := done }
    | (evs, fs, done, none) =>
      if done = [] then
        { outcome := RunOutcome.exited 2, events := evs, fs := fs, exported_files := done }
      else
        { outcome := RunOutcome.completed
          events := evs ++ done.map (fun p =>
            Event.s3Upload cfg.S3_BUCKET (upload_to_s3 p cfg.S3_BUCKET (some cfg.S3_PREFIX)))
          fs := fs
          exported_files := done }

/-! ## Concrete configurations and databases used by closed theorems -/

/-- A fully populated configuration; concrete scenarios override fields. -/
def cfgBase : Config :=
  { PG_DB := "db", PG_USER := "u", PG_PASSWORD := "p", PG_SCHEMA := "public"
    TABLES_ENV := "t", CSV_QUOTE := "MINIMAL", CHUNKSIZE := 2
    OUTPUT_DIR := "/app/out", S3_BUCKET := "bkt", S3_PREFIX := ""
    TIMESTAMP := "20250101T000000Z" }

/-- A database with an empty catalog and no rows anywhere. -/
def dbEmpty : Db := { catalog := [], contents := fun _ _ => [] }

/-- Table `t` exists in schema `public` but has zero rows. -/
def dbZeroRows : Db := { catalog := [("public", "t")], contents := fun _ _ => [] }

/-- Table `t` exists in schema `public` with three one-cell rows. -/
def dbThreeRows : Db :=
  { catalog := [("public", "t")], contents := fun _ _ => [["a"], ["b"], ["c"]] }

/-- Configuration whose table list is the SQL-injection attempt of Scenario D. -/
def cfgInject : Config := { cfgBase with TABLES_ENV := "users; DROP TABLE x" }

/-- Configuration listing one valid table `users`. -/
def cfgUsers : Config := { cfgBase with TABLES_ENV := "users" }

/-- Table `users` exists in schema `public` with one row. -/
def dbUsers : Db := { catalog := [("public", "users")], contents := fun _ _ => [["1"]] }

/-- Configuration with the required `PG_DB` missing (empty). -/
def cfgNoDb : Config := { cfgBase with PG_DB := "" }

/-- Configuration listing one table that does not exist in the database. -/
def cfgGhost : Config := { cfgBase with TABLES_ENV := "ghost" }

/-- Configuration listing the same table `t` twice in one run. -/
def cfgDup : Config := { cfgBase with TABLES_ENV := "t,t" }

/-- Table `t` exists in schema `public` with a single one-cell row. -/
def dbOneRow : Db := { catalog := [("public", "t")], contents := fun _ _ => [["x"]] }

/-- Configuration whose table-list value consists only of commas and
whitespace. -/
def cfgCommas : Config := { cfgBase with TABLES_ENV := " , \t ,, " }

/-! ## Helper lemmas -/

theorem dropWhile_head_false {α : Type} (p : α → Bool) (l : List α) (a : α)
    (h : (l.dropWhile p).head? = some a) : p a = false := by
  induction l with
  | nil => simp [List.dropWhile] at h
  | cons c cs ih =>
    by_cases hc : p c = true
    · rw [List.dropWhile_cons_of_pos hc] at h
      exact ih h
    · rw [List.dropWhile_cons_of_neg hc] at h
      simp only [List.head?_cons, Option.some.injEq] at h
      subst h
      exact Bool.not_eq_true _ ▸ eq_false_of_ne_true hc

theorem dropWhile_eq_self_of_head {α : Type} (p : α → Bool) (l : List α)
    (h : ∀ a, l.head? = some a → p a = false) : l.dropWhile p = l := by
  cases l with
  | nil => rfl
  | cons c cs =>
    have hc := h c rfl
    exact List.dropWhile_cons_of_neg (by simp [hc])

theorem dropWhile_suffix_exists {α : Type} (p : α → Bool) (l : List α) :
    ∃ m, m ++ l.dropWhile p = l := by
  induction l with
  | nil => exact ⟨[], rfl⟩
  | cons c cs ih =>
    by_cases hc : p c = true
    · obtain ⟨m, hm⟩ := ih
      exact ⟨c :: m, by rw [List.dropWhile_cons_of_pos hc]; simpa using hm⟩
    · exact ⟨[], by rw [List.dropWhile_cons_of_neg hc]; simp⟩

theorem stripAround_idem {α : Type} (p : α → Bool) (l : List α) :
    stripAround p (stripAround p l) = stripAround p l := by
  unfold stripAround
  set d := l.dropWhile p with hd
  set w := d.reverse.dropWhile p with hw
  cases hr : w.reverse with
  | nil => simp [hr, List.dropWhile]
  | cons a t =>
    have hwne : w ≠ [] := by
      intro h0
      rw [h0] at hr
      simp at hr
    -- first element of `w` is not `p` (it is the head of a dropWhile result)
    obtain ⟨b, u, hbu⟩ := List.exists_cons_of_ne_nil hwne
    have hb : p b = false := by
      apply dropWhile_head_false p d.reverse
      rw [← hw, hbu]
      rfl
    -- head of `w.reverse` is the head of `d`, which is not `p`
    have hprefix : ∃ m, w.reverse ++ m = d := by
      obtain ⟨m, hm⟩ := dropWhile_suffix_exists p d.reverse
      refine ⟨m.reverse, ?_⟩
      rw [← hw] at hm
      have := congrArg List.reverse hm
      simpa using this
    have ha : p a = false := by
      obtain ⟨m, hm⟩ := hprefix
      apply dropWhile_head_false p l
      rw [← hd, ← hm, hr]
      rfl
    -- now both dropWhile steps on `a :: t = w.reverse` are identities
    have h1 : (a :: t).dropWhile p = a :: t := by
      apply dropWhile_eq_self_of_head
      intro x hx
      simp only [List.head?_cons, Option.some.injEq] at hx
      subst hx
      exact ha
    have h2 : (a :: t).reverse.dropWhile p = (a :: t).reverse := by
      apply dropWhile_eq_self_of_head
      intro x hx
      rw [show (a :: t).reverse = w from by rw [← hr, List.reverse_reverse], hbu] at hx
      simp only [List.head?_cons, Option.some.injEq] at hx
      subst hx
      exact hb
    rw [h1, h2, List.reverse_reverse]

theorem pyStrip_idem (s : String) : pyStrip (pyStrip s) = pyStrip s := by
  unfold pyStrip
  rw [show (String.mk (stripAround isPySpace s.data)).data
        = stripAround isPySpace s.data from rfl]
  rw [stripAround_idem]

theorem mem_parseTables (s t : String) (h : t ∈ parseTables s) :
    pyStrip t = t ∧ t ≠ "" := by
  unfold parseTables at h
  rw [List.mem_filter] at h
  obtain ⟨hmem, hne⟩ := h
  constructor
  · rw [List.mem_map] at hmem
    obtain ⟨u, _, rfl⟩ := hmem
    exact pyStrip_idem u
  · simpa using hne

theorem safe_ident_eq_ok (n : String) (h : reMatchIdent n = true) :
    safe_ident n = Except.ok n := by
  simp [safe_ident, h]

/-! ## Chunking lemmas -/

theorem chunksOfAux_flatten (C : Nat) (hC : 0 < C) :
    ∀ (fuel : Nat) (rows : List Row), rows.length ≤ fuel →
      (chunksOfAux C fuel rows).flatten = rows := by
  intro fuel
  induction fuel with
  | zero =>
    intro rows hf
    have : rows = [] := List.length_eq_zero.mp (Nat.le_zero.mp hf)
    subst this
    rfl
  | succ fuel ih =>
    intro rows hf
    cases rows with
    | nil => rfl
    | cons a l =>
      show ((a :: l).take C ++ (chunksOfAux C fuel ((a :: l).drop C)).flatten) = a :: l
      rw [ih ((a :: l).drop C) (by simp only [List.length_drop, List.length_cons]; simp only [List.length_cons] at hf; omega)]
      exact List.take_append_drop C (a :: l)

theorem chunksOfAux_length (C : Nat) (hC : 0 < C) :
    ∀ (fuel : Nat) (rows : List Row), rows.length ≤ fuel →
      (chunksOfAux C fuel rows).length = (rows.length + C - 1) / C := by
  intro fuel
  induction fuel with
  | zero =>
    intro rows hf
    have : rows = [] := List.length_eq_zero.mp (Nat.le_zero.mp hf)
    subst this
    show (0 : Nat) = (0 + C - 1) / C
    rw [Nat.zero_add, Nat.div_eq_of_lt (by omega)]
  | succ fuel ih =>
    intro rows hf
    cases rows with
    | nil =>
      show (0 : Nat) = (0 + C - 1) / C
      rw [Nat.zero_add, Nat.div_eq_of_lt (by omega)]
    | cons a l =>
      show (chunksOfAux C fuel ((a :: l).drop C)).length + 1
          = ((a :: l).length + C - 1) / C
      rw [ih ((a :: l).drop C) (by simp only [List.length_drop, List.length_cons]; simp only [List.length_cons] at hf; omega)]
      simp only [List.length_drop, List.length_cons]
      have hR : (l.length + 1) + C - 1 = (l.length + 1 - 1) + C := by omega
      rw [hR, Nat.add_div_right _ hC]
      have h2 : (l.length + 1 - C + C - 1) / C = (l.length + 1 - 1) / C := by
        rcases Nat.le_total (l.length + 1) C with h | h
        · have e0 : l.length + 1 - C = 0 := by omega
          rw [e0, Nat.zero_add, Nat.div_eq_of_lt (by omega),
            Nat.div_eq_of_lt (by omega)]
        · have e1 : l.length + 1 - C + C - 1 = l.length + 1 - 1 := by omega
          rw [e1]
      rw [h2]

theorem chunksOf_flatten (C : Nat) (rows : List Row) (hC : 0 < C) :
    (chunksOf C rows).flatten = rows := by
  unfold chunksOf
  rw [if_neg (by omega)]
  by_cases h : rows = []
  · rw [if_pos h, h]
    rfl
  · rw [if_neg h]
    exact chunksOfAux_flatten C hC rows.length rows (Nat.le_refl _)

theorem chunksOf_length (C : Nat) (rows : List Row) (hC : 0 < C) (h : rows ≠ []) :
    (chunksOf C rows).length = (rows.length + C - 1) / C := by
  unfold chunksOf
  rw [if_neg (by omega), if_neg h]
  exact chunksOfAux_length C hC rows.length rows (Nat.le_refl _)

theorem chunksOf_length_all (C : Nat) (rows : List Row) (hC : 0 < C) :
    (chunksOf C rows).length =
      if rows = [] then 1 else (rows.length + C - 1) / C := by
  by_cases h : rows = []
  · rw [if_pos h]
    unfold chunksOf
    rw [if_neg (by omega), if_pos h]
    rfl
  · rw [if_neg h]
    exact chunksOf_length C rows hC h

theorem chunksOf_ne_nil (C : Nat) (rows : List Row) (hC : 0 < C) :
    chunksOf C rows ≠ [] := by
  by_cases h : rows = []
  · unfold chunksOf
    rw [if_neg (by omega), if_pos h]
    simp
  · have hlen : 0 < (chunksOf C rows).length := by
      rw [chunksOf_length C rows hC h]
      have : 0 < rows.length := List.length_pos.mpr h
      have : C ≤ rows.length + C - 1 := by omega
      have := (Nat.one_le_div_iff hC).mpr this
      omega
    exact List.ne_nil_of_length_pos hlen

/-! ## Export-loop lemmas -/

theorem appendFS_nil (fs : FS) (path : String) : appendFS fs path [] = fs := by
  funext p
  by_cases h : p = path <;> simp [appendFS, h]

theorem appendFS_append (fs : FS) (path : String) (a b : List Line) :
    appendFS (appendFS fs path a) path b = appendFS fs path (a ++ b) := by
  funext q
  by_cases h : q = path <;> simp [appendFS, h]

theorem exportChunks_eq (path : String) (chunks : List (List Row)) :
    ∀ (hw : Bool) (rc ops : Nat) (fs : FS),
      exportChunks path chunks hw rc ops fs =
        (appendFS fs path (csvLines chunks hw),
         rc + chunks.flatten.length, ops + chunks.length) := by
  induction chunks with
  | nil =>
    intro hw rc ops fs
    show (fs, rc, ops) = _
    rw [show csvLines [] hw = [] from rfl, appendFS_nil]
    simp [List.flatten]
  | cons c rest ih =>
    intro hw rc ops fs
    show exportChunks path rest true (rc + c.length) (ops + 1)
        (appendFS fs path (chunkCsvLines hw c)) = _
    rw [ih]
    rw [appendFS_append]
    show (appendFS fs path (chunkCsvLines hw c ++ csvLines rest true), _, _) = _
    rw [show chunkCsvLines hw c ++ csvLines rest true = csvLines (c :: rest) hw from rfl]
    simp only [List.flatten_cons, List.length_append, List.length_cons, Prod.mk.injEq,
      true_and]
    omega

theorem csvLines_true (chunks : List (List Row)) :
    csvLines chunks true = chunks.flatten.map Line.data := by
  induction chunks with
  | nil => rfl
  | cons c rest ih => simp [csvLines, chunkCsvLines, ih, List.flatten_cons]

theorem csvLines_false_ne (chunks : List (List Row)) (h : chunks ≠ []) :
    csvLines chunks false = Line.header :: chunks.flatten.map Line.data := by
  cases chunks with
  | nil => exact absurd rfl h
  | cons c rest =>
    simp [csvLines, chunkCsvLines, csvLines_true, List.flatten_cons]

theorem csvLines_chunksOf (C : Nat) (rows : List Row) (hC : 0 < C) :
    csvLines (chunksOf C rows) false = csvContent rows := by
  rw [csvLines_false_ne _ (chunksOf_ne_nil C rows hC), chunksOf_flatten C rows hC]
  rfl

theorem countHeaders_data (rows : List Row) :
    countHeaders (rows.map Line.data) = 0 := by
  induction rows with
  | nil => rfl
  | cons r rest ih =>
    simp only [List.map_cons, countHeaders, List.countP_cons] at ih ⊢
    simp [isHeaderLine, ih]

/-! ## Claim C1 -/

/-- C1: for a valid table and schema name and chunk size `C > 0`,
`export_table_to_csv` accumulates a row count of exactly `R`, performs
exactly `ceil(R / C) = (R + C - 1) / C` chunk-append operations when
`R > 0` (and exactly one for `R = 0`: the single empty chunk pandas yields),
and the produced file is the header line exactly once, written first —
before any data line — followed by the `R` data lines.  In particular a
zero-row table still produces a file containing the header line exactly
once. -/
theorem C1_thm (cfg : Config) (db : Db) (tbl : String)
    (htbl : reMatchIdent tbl = true) (hsch : reMatchIdent cfg.PG_SCHEMA = true)
    (hC : 0 < cfg.CHUNKSIZE) :
    exportSummary cfg db tbl =
      some (csvContent (db.contents cfg.PG_SCHEMA tbl),
            (db.contents cfg.PG_SCHEMA tbl).length,
            (if db.contents cfg.PG_SCHEMA tbl = [] then 1
             else ((db.contents cfg.PG_SCHEMA tbl).length + cfg.CHUNKSIZE - 1)
               / cfg.CHUNKSIZE))
    ∧ countHeaders (csvContent (db.contents cfg.PG_SCHEMA tbl)) = 1 := by
  constructor
  · simp only [exportSummary, export_table_to_csv, safe_ident_eq_ok tbl htbl,
      safe_ident_eq_ok cfg.PG_SCHEMA hsch, exportChunks_eq]
    simp only [appendFS, emptyFS, if_pos, List.nil_append, Nat.zero_add]
    rw [csvLines_chunksOf _ _ hC, chunksOf_flatten _ _ hC, chunksOf_length_all _ _ hC]
  · unfold csvContent countHeaders
    rw [List.countP_cons]
    have := countHeaders_data (db.contents cfg.PG_SCHEMA tbl)
    unfold countHeaders at this
    simp [isHeaderLine, this]

/-- C1 witness: `C1_thm` at the three-row table `t` with chunk size 2 (two
chunk appends, row count 3, the header exactly once and first) and at the
zero-row table `t` (one append writing the header-only file). -/
theorem C1_witness :
    reMatchIdent "t" = true ∧ 0 < cfgBase.CHUNKSIZE
    ∧ exportSummary cfgBase dbThreeRows "t" =
        some ([Line.header, Line.data ["a"], Line.data ["b"], Line.data ["c"]], 3, 2)
    ∧ exportSummary cfgBase dbZeroRows "t" = some ([Line.header], 0, 1) := by
  refine ⟨by decide, by decide, ?_, ?_⟩
  · exact ((C1_thm cfgBase dbThreeRows "t" (by decide) (by decide) (by decide)).1).trans
      (by decide)
  · exact ((C1_thm cfgBase dbZeroRows "t" (by decide) (by decide) (by decide)).1).trans
      (by decide)

/-! ## Claim C2 -/

/-- C2: the Identifier Guard is claimed to return unchanged exactly the
strings matching `^[A-Za-z0-9_]+$` (ASCII letters, digits, underscore only)
and to fail on every other string.  The code uses `re.match`, whose `$` also
matches just before one trailing newline: `safe_ident` accepts `"users\n"`
and returns it unchanged even though it contains a character outside
`[A-Za-z0-9_]`, contradicting the function's own docstring ("permite solo
a-zA-Z0-9_"). -/
theorem C2_thm :
    safe_ident "users\n" = Except.ok "users\n"
    ∧ "users\n".data.all validIdentChar = false := by
  constructor
  · rfl
  · decide

/-! ## Claim C4 -/

/-- C4: the Existence Checker issues a fixed-text parameterized catalog query
with `schema` and `tbl` passed only as bound parameters, and returns `true`
iff the catalog count is positive.  It is total (`Bool`-valued): a
nonexistent table is the normal result `false`, never an error. -/
theorem C4_thm (db : Db) (schema tbl : String) :
    (tableExistsQuery schema tbl).sqlText =
      "SELECT COUNT(*) AS c FROM information_schema.tables WHERE table_schema = :schema AND table_name = :tbl"
    ∧ (tableExistsQuery schema tbl).params = [("schema", schema), ("tbl", tbl)]
    ∧ (table_exists db schema tbl = true ↔ 0 < catalogCount db schema tbl) := by
  refine ⟨rfl, rfl, ?_⟩
  simp [table_exists]

/-! ## Claim C7 -/

/-- C7 counterexample: the claim lists the configuration name `non-numeric`
among the four recognized names, but the code's dictionary key is
`NONNUMERIC`; configuring the literal name `non-numeric` upper-cases to
`NON-NUMERIC`, misses the dictionary, and falls back to `QUOTE_MINIMAL`
instead of selecting `QUOTE_NONNUMERIC`. -/
theorem C7_counter :
    selectQuote "non-numeric" = QuoteConst.QUOTE_MINIMAL
    ∧ QuoteConst.QUOTE_MINIMAL ≠ QuoteConst.QUOTE_NONNUMERIC := by
  exact ⟨rfl, by decide⟩

/-- C7 (amended): the recognized configuration names are `minimal`, `all`,
`nonnumeric` and `none` (matched case-insensitively via upper-casing); each
selects its constant, and every other name — including the hyphenated
spelling `non-numeric` — falls back to `QUOTE_MINIMAL` rather than failing. -/
theorem C7_thm :
    selectQuote "minimal" = QuoteConst.QUOTE_MINIMAL
    ∧ selectQuote "all" = QuoteConst.QUOTE_ALL
    ∧ selectQuote "nonnumeric" = QuoteConst.QUOTE_NONNUMERIC
    ∧ selectQuote "none" = QuoteConst.QUOTE_NONE
    ∧ (∀ s : String, pyUpper s ≠ "MINIMAL" → pyUpper s ≠ "ALL" →
        pyUpper s ≠ "NONNUMERIC" → pyUpper s ≠ "NONE" →
        selectQuote s = QuoteConst.QUOTE_MINIMAL) := by
  refine ⟨rfl, rfl, rfl, rfl, ?_⟩
  intro s h1 h2 h3 h4
  unfold selectQuote csv_quote_const
  rw [if_neg h1, if_neg h2, if_neg h3, if_neg h4]

/-- C7 witness: the fallback branch of `C7_thm` at the concrete unrecognized
name `weird`. -/
theorem C7_witness :
    pyUpper "weird" ≠ "MINIMAL"
    ∧ selectQuote "weird" = QuoteConst.QUOTE_MINIMAL := by
  refine ⟨by decide, ?_⟩
  exact C7_thm.2.2.2.2 "weird" (by decide) (by decide) (by decide) (by decide)

/-! ## Claim C8 -/

/-- C8: the Upload Stage derives the remote key as `basename(localPath)` when
the prefix is absent or empty, and as the prefix with trailing slashes
stripped, then `/`, then `basename(localPath)` otherwise, and returns that
key on success. -/
theorem C8_thm (local_path bucket : String) :
    upload_to_s3 local_path bucket none = pyBasename local_path
    ∧ upload_to_s3 local_path bucket (some "") = pyBasename local_path
    ∧ ∀ p : String, p ≠ "" →
        upload_to_s3 local_path bucket (some p)
          = pyRstripSlash p ++ "/" ++ pyBasename local_path := by
  refine ⟨rfl, rfl, ?_⟩
  intro p hp
  unfold upload_to_s3
  simp [hp]

/-- C8 witness: `C8_thm` at a concrete path and non-empty prefix. -/
theorem C8_witness :
    ("data" : String) ≠ ""
    ∧ upload_to_s3 "/app/out/t.csv" "bkt" (some "data") = "data/t.csv" := by
  constructor
  · decide
  · exact ((C8_thm "/app/out/t.csv" "bkt").2.2 "data" (by decide)).trans (by decide)

/-! ## Run-level helper lemmas -/

theorem export_table_to_csv_ok (cfg : Config) (db : Db) (tbl : String) (fs : FS)
    (r : ExportResult) (h : export_table_to_csv cfg db tbl fs = Except.ok r) :
    reMatchIdent tbl = true ∧ reMatchIdent cfg.PG_SCHEMA = true ∧
    r.events = Event.dbSelectQuery cfg.PG_SCHEMA tbl ::
      (chunksOf cfg.CHUNKSIZE (db.contents cfg.PG_SCHEMA tbl)).map
        (fun _ => Event.fileAppend r.out_path) := by
  by_cases h1 : reMatchIdent tbl = true
  · by_cases h2 : reMatchIdent cfg.PG_SCHEMA = true
    · refine ⟨h1, h2, ?_⟩
      unfold export_table_to_csv at h
      rw [safe_ident_eq_ok tbl h1, safe_ident_eq_ok cfg.PG_SCHEMA h2] at h
      simp only [Except.ok.injEq] at h
      subst h
      rfl
    · exfalso
      rw [Bool.not_eq_true] at h2
      unfold export_table_to_csv at h
      rw [safe_ident_eq_ok tbl h1] at h
      simp [safe_ident, h2] at h
  · exfalso
    rw [Bool.not_eq_true] at h1
    unfold export_table_to_csv at h
    simp [safe_ident, h1] at h

theorem exportPhase_all_skip (cfg : Config) (db : Db) (tbls : List String) :
    ∀ (evs : List Event) (fs : FS) (done : List String),
      (∀ t ∈ tbls, table_exists db cfg.PG_SCHEMA t = false) →
      exportPhase cfg db tbls evs fs done =
        (evs ++ tbls.map (fun t => Event.dbExistsQuery cfg.PG_SCHEMA t),
         fs, done, none) := by
  induction tbls with
  | nil =>
    intro evs fs done h
    simp [exportPhase]
  | cons t rest ih =>
    intro evs fs done h
    have ht : table_exists db cfg.PG_SCHEMA t = false := h t (by simp)
    simp only [exportPhase]
    rw [ht]
    simp only [Bool.false_eq_true, if_false]
    rw [ih (evs ++ [Event.dbExistsQuery cfg.PG_SCHEMA t]) fs done
      (fun t' ht' => h t' (List.mem_cons_of_mem t ht'))]
    simp

theorem exportPhase_events (cfg : Config) (db : Db) (tbls : List String) :
    ∀ (evs : List Event) (fs : FS) (done : List String) (e : Event),
      e ∈ (exportPhase cfg db tbls evs fs done).1 →
      e ∈ evs
      ∨ (∃ t, t ∈ tbls ∧ e = Event.dbExistsQuery cfg.PG_SCHEMA t)
      ∨ (∃ t, t ∈ tbls ∧ reMatchIdent t = true ∧ reMatchIdent cfg.PG_SCHEMA = true
            ∧ e = Event.dbSelectQuery cfg.PG_SCHEMA t)
      ∨ (∃ p, e = Event.fileAppend p) := by
  induction tbls with
  | nil =>
    intro evs fs done e he
    exact Or.inl (by simpa [exportPhase] using he)
  | cons t rest ih =>
    intro evs fs done e he
    simp only [exportPhase] at he
    split at he
    · -- the table exists: the export runs
      rcases hx : export_table_to_csv cfg db t fs with e' | r
      · rw [hx] at he
        simp only [List.mem_append, List.mem_singleton] at he
        rcases he with he | he
        · exact Or.inl he
        · exact Or.inr (Or.inl ⟨t, List.mem_cons_self t rest, he⟩)
      · rw [hx] at he
        rcases ih _ _ _ _ he with hm | ⟨t', ht', h1⟩ | ⟨t', ht', hv1, hv2, h1⟩ | ⟨p, h1⟩
        · -- e comes from evs ++ [existsQuery] ++ r.events
          simp only [List.mem_append, List.mem_singleton] at hm
          rcases hm with (hm | hm) | hm
          · exact Or.inl hm
          · exact Or.inr (Or.inl ⟨t, List.mem_cons_self t rest, hm⟩)
          · obtain ⟨hv1, hv2, hev⟩ := export_table_to_csv_ok cfg db t fs r hx
            rw [hev] at hm
            simp only [List.mem_cons, List.mem_map] at hm
            rcases hm with hm | ⟨c, _, hm⟩
            · exact Or.inr (Or.inr (Or.inl ⟨t, List.mem_cons_self t rest, hv1, hv2, hm⟩))
            · exact Or.inr (Or.inr (Or.inr ⟨r.out_path, hm.symm⟩))
        · exact Or.inr (Or.inl ⟨t', List.mem_cons_of_mem t ht', h1⟩)
        · exact Or.inr (Or.inr (Or.inl ⟨t', List.mem_cons_of_mem t ht', hv1, hv2, h1⟩))
        · exact Or.inr (Or.inr (Or.inr ⟨p, h1⟩))
    · -- the table does not exist: skip
      rcases ih _ _ _ _ he with hm | ⟨t', ht', h1⟩ | ⟨t', ht', hv1, hv2, h1⟩ | ⟨p, h1⟩
      · simp only [List.mem_append, List.mem_singleton] at hm
        rcases hm with hm | hm
        · exact Or.inl hm
        · exact Or.inr (Or.inl ⟨t, List.mem_cons_self t rest, hm⟩)
      · exact Or.inr (Or.inl ⟨t', List.mem_cons_of_mem t ht', h1⟩)
      · exact Or.inr (Or.inr (Or.inl ⟨t', List.mem_cons_of_mem t ht', hv1, hv2, h1⟩))
      · exact Or.inr (Or.inr (Or.inr ⟨p, h1⟩))

theorem mainRun_events (cfg : Config) (db : Db) (e : Event)
    (he : e ∈ (mainRun cfg db).events) :
    e = Event.mkdirOutput cfg.OUTPUT_DIR
    ∨ (∃ t, t ∈ parseTables cfg.TABLES_ENV ∧ e = Event.dbExistsQuery cfg.PG_SCHEMA t)
    ∨ (∃ t, t ∈ parseTables cfg.TABLES_ENV ∧ reMatchIdent t = true
          ∧ reMatchIdent cfg.PG_SCHEMA = true ∧ e = Event.dbSelectQuery cfg.PG_SCHEMA t)
    ∨ (∃ p, e = Event.fileAppend p)
    ∨ (∃ b k, e = Event.s3Upload b k) := by
  unfold mainRun at he
  split at he
  · simp at he
  · split at he
    · simp at he
    · rcases hE : exportPhase cfg db (parseTables cfg.TABLES_ENV)
          [Event.mkdirOutput cfg.OUTPUT_DIR] emptyFS [] with ⟨evs, fs2, done, err⟩
      have step : ∀ x : Event, x ∈ evs →
          x = Event.mkdirOutput cfg.OUTPUT_DIR
          ∨ (∃ t, t ∈ parseTables cfg.TABLES_ENV
                ∧ x = Event.dbExistsQuery cfg.PG_SCHEMA t)
          ∨ (∃ t, t ∈ parseTables cfg.TABLES_ENV ∧ reMatchIdent t = true
                ∧ reMatchIdent cfg.PG_SCHEMA = true
                ∧ x = Event.dbSelectQuery cfg.PG_SCHEMA t)
          ∨ (∃ p, x = Event.fileAppend p)
          ∨ (∃ b k, x = Event.s3Upload b k) := by
        intro x hx
        rcases exportPhase_events cfg db (parseTables cfg.TABLES_ENV)
            [Event.mkdirOutput cfg.OUTPUT_DIR] emptyFS [] x
            (by rw [hE]; exact hx) with
          h1 | ⟨t, ht, h1⟩ | ⟨t, ht, hv1, hv2, h1⟩ | ⟨p, h1⟩
        · exact Or.inl (by simpa using h1)
        · exact Or.inr (Or.inl ⟨t, ht, h1⟩)
        · exact Or.inr (Or.inr (Or.inl ⟨t, ht, hv1, hv2, h1⟩))
        · exact Or.inr (Or.inr (Or.inr (Or.inl ⟨p, h1⟩)))
      cases err with
      | some e' =>
        rw [hE] at he
        simp only at he
        exact step e he
      | none =>
        rw [hE] at he
        simp only at he
        split at he
        · exact step e he
        · simp only [List.mem_append, List.mem_map] at he
          rcases he with he | ⟨p, _, he⟩
          · exact step e he
          · exact Or.inr (Or.inr (Or.inr (Or.inr ⟨cfg.S3_BUCKET, _, he.symm⟩)))

theorem filter_upload_exists (sch : String) (l : List String) :
    (l.map (fun t => Event.dbExistsQuery sch t)).filter isUploadEvent = [] := by
  induction l with
  | nil => rfl
  | cons t rest ih => simp [isUploadEvent, List.filter_cons, ih]

/-! ## Claim C3 -/

/-- C3 counterexample: for the configured table name `users; DROP TABLE x`
(not matching `^[A-Za-z0-9_]+$`), the run does issue a database call — the
parameterized existence check with the raw name as bound parameter — before
the Identifier Guard ever runs; since the catalog reports the table absent,
the name is skipped with a warning and the guard never rejects it, and the
run ends with exit status 2, not with an `InvalidIdentifier` error. -/
theorem C3_counter :
    (mainRun cfgInject dbEmpty).events =
      [Event.mkdirOutput "/app/out",
       Event.dbExistsQuery "public" "users; DROP TABLE x"]
    ∧ (mainRun cfgInject dbEmpty).outcome = RunOutcome.exited 2 := by
  exact ⟨rfl, rfl⟩

/-- C3 (amended): the existence check — one parameterized database call with
the raw configured name as a bound parameter — always precedes the Identifier
Guard; the guard runs only inside the exporter, so what holds is that every
interpolated `SELECT` query of a run is built exclusively from names that
match the guard's pattern. -/
theorem C3_thm (cfg : Config) (db : Db) (s t : String)
    (h : Event.dbSelectQuery s t ∈ (mainRun cfg db).events) :
    reMatchIdent s = true ∧ reMatchIdent t = true := by
  rcases mainRun_events cfg db _ h with
    h1 | ⟨t', _, h1⟩ | ⟨t', _, hv1, hv2, h1⟩ | ⟨p, h1⟩ | ⟨b, k, h1⟩
  · simp at h1
  · simp at h1
  · injection h1 with hs ht2
    subst hs
    subst ht2
    exact ⟨hv2, hv1⟩
  · simp at h1
  · simp at h1

/-- C3 witness: `C3_thm` at the concrete run that exports the valid table
`users` and hence issues one `SELECT` query. -/
theorem C3_witness :
    Event.dbSelectQuery "public" "users" ∈ (mainRun cfgUsers dbUsers).events
    ∧ reMatchIdent "public" = true ∧ reMatchIdent "users" = true := by
  exact ⟨by decide, C3_thm cfgUsers dbUsers "public" "users" (by decide)⟩

/-! ## Claim C5 -/

/-- C5: when any required setting (database name, user, password, a non-empty
table list, or the destination bucket) is missing or empty, the run exits
with status 1 immediately: no output directory is created and no database
query is issued (the event trace is empty). -/
theorem C5_thm (cfg : Config) (db : Db)
    (h : cfg.PG_DB = "" ∨ cfg.PG_USER = "" ∨ cfg.PG_PASSWORD = ""
         ∨ parseTables cfg.TABLES_ENV = [] ∨ cfg.S3_BUCKET = "") :
    (mainRun cfg db).outcome = RunOutcome.exited 1
    ∧ (mainRun cfg db).events = []
    ∧ (mainRun cfg db).exported_files = [] := by
  unfold mainRun
  by_cases h1 : cfg.PG_DB = "" ∨ cfg.PG_USER = "" ∨ cfg.PG_PASSWORD = ""
      ∨ parseTables cfg.TABLES_ENV = []
  · rw [if_pos h1]
    exact ⟨rfl, rfl, rfl⟩
  · have h2 : cfg.S3_BUCKET = "" := by tauto
    rw [if_neg h1, if_pos h2]
    exact ⟨rfl, rfl, rfl⟩

/-- C5 witness: `C5_thm` with the database name missing. -/
theorem C5_witness :
    cfgNoDb.PG_DB = ""
    ∧ (mainRun cfgNoDb dbEmpty).outcome = RunOutcome.exited 1
    ∧ (mainRun cfgNoDb dbEmpty).events = [] := by
  have h := C5_thm cfgNoDb dbEmpty (Or.inl rfl)
  exact ⟨rfl, h.1, h.2.1⟩

/-! ## Claim C6 -/

/-- C6: when configuration validation passes but every configured table is
skipped as nonexistent, the run exits with status 2 and the upload phase is
never entered (the trace contains no upload event and no file was
exported). -/
theorem C6_thm (cfg : Config) (db : Db)
    (h1 : ¬(cfg.PG_DB = "" ∨ cfg.PG_USER = "" ∨ cfg.PG_PASSWORD = ""
            ∨ parseTables cfg.TABLES_ENV = []))
    (h2 : ¬cfg.S3_BUCKET = "")
    (hall : ∀ t ∈ parseTables cfg.TABLES_ENV,
        table_exists db cfg.PG_SCHEMA t = false) :
    (mainRun cfg db).outcome = RunOutcome.exited 2
    ∧ (mainRun cfg db).events.filter isUploadEvent = []
    ∧ (mainRun cfg db).exported_files = [] := by
  have hm : mainRun cfg db =
      { outcome := RunOutcome.exited 2
        events := Event.mkdirOutput cfg.OUTPUT_DIR ::
          (parseTables cfg.TABLES_ENV).map
            (fun t => Event.dbExistsQuery cfg.PG_SCHEMA t)
        fs := emptyFS
        exported_files := [] } := by
    unfold mainRun
    rw [if_neg h1, if_neg h2]
    rw [exportPhase_all_skip cfg db (parseTables cfg.TABLES_ENV)
      [Event.mkdirOutput cfg.OUTPUT_DIR] emptyFS [] hall]
    simp
  rw [hm]
  refine ⟨rfl, ?_, rfl⟩
  simp [List.filter_cons, isUploadEvent, filter_upload_exists]

/-- C6 witness: `C6_thm` at a run whose single configured table `ghost` does
not exist. -/
theorem C6_witness :
    parseTables cfgGhost.TABLES_ENV = ["ghost"]
    ∧ table_exists dbEmpty "public" "ghost" = false
    ∧ (mainRun cfgGhost dbEmpty).outcome = RunOutcome.exited 2
    ∧ (mainRun cfgGhost dbEmpty).events.filter isUploadEvent = [] := by
  have h := C6_thm cfgGhost dbEmpty (by decide) (by decide) (by decide)
  exact ⟨by decide, by decide, h.1, h.2.1⟩

/-! ## Claim C9 -/

/-- C9: every chunk append opens the output file in append mode and never
truncates: whatever the filesystem held at any path before the chunk loop is
a prefix of what it holds afterwards.  Consequently, when the same table `t`
appears twice in the configured table list of one run, both exports write to
the same path (same table name, same run timestamp) and the file ends up
with the second export's header and rows appended after the first's — the
file contains the header line twice. -/
theorem C9_thm :
    (∀ (path : String) (chunks : List (List Row)) (hw : Bool) (rc ops : Nat)
        (fs : FS) (p : String),
      ∃ tail, (exportChunks path chunks hw rc ops fs).1 p = fs p ++ tail)
    ∧ countHeaders
        ((mainRun cfgDup dbOneRow).fs "/app/out/t_20250101T000000Z.csv") = 2 := by
  constructor
  · intro path chunks hw rc ops fs p
    rw [exportChunks_eq path chunks]
    by_cases h : p = path
    · exact ⟨csvLines chunks hw, by simp [appendFS, h]⟩
    · exact ⟨[], by simp [appendFS, h]⟩
  · decide

/-! ## Claim C10 -/

/-- C10: the table-list value is split on commas, each entry is stripped of
surrounding whitespace, and entries empty after stripping are dropped; a
value of only commas and whitespace therefore parses to the empty list and
the run exits with status 1 without any event; and every table name a run
passes to the existence check is already whitespace-trimmed. -/
theorem C10_thm :
    (∀ s t : String, t ∈ parseTables s → pyStrip t = t ∧ t ≠ "")
    ∧ (parseTables cfgCommas.TABLES_ENV = []
        ∧ (mainRun cfgCommas dbEmpty).outcome = RunOutcome.exited 1
        ∧ (mainRun cfgCommas dbEmpty).events = [])
    ∧ (∀ (cfg : Config) (db : Db) (s t : String),
        Event.dbExistsQuery s t ∈ (mainRun cfg db).events → pyStrip t = t) := by
  refine ⟨fun s t h => mem_parseTables s t h, ⟨by decide, by decide, by decide⟩, ?_⟩
  intro cfg db s t h
  rcases mainRun_events cfg db _ h with
    h1 | ⟨t', ht', h1⟩ | ⟨t', _, _, _, h1⟩ | ⟨p, h1⟩ | ⟨b, k, h1⟩
  · simp at h1
  · injection h1 with hs ht2
    rw [← ht2] at ht'
    exact (mem_parseTables _ t ht').1
  · simp at h1
  · simp at h1
  · simp at h1

/-- C10 witness: `C10_thm` on the concrete list value `" a ,b "`, whose first
parsed entry `a` is trimmed and non-empty. -/
theorem C10_witness :
    ("a" ∈ parseTables " a ,b ") ∧ pyStrip "a" = "a" ∧ ("a" : String) ≠ "" := by
  refine ⟨by decide, ?_, ?_⟩
  · exact (C10_thm.1 " a ,b " "a" (by decide)).1
  · exact (C10_thm.1 " a ,b " "a" (by decide)).2

end Ingesta
